import Mathlib

/-!
Verification of the frame-exact extraction and deterministic
image-composition pipeline of `app.py` (video content-analysis tool).

The Python source is shallowly embedded:

* `apply_filter_and_drawing_pipeline` (src/app.py lines 67-128) becomes a
  pure Lean function parameterised by a `Collab` record holding the external
  OpenCV/PIL collaborator operations (imdecode, LAB-space white balance,
  CLAHE, Lanczos resize, primitive drawing, PNG encode).  The
  brightness/contrast arithmetic (`cv2.convertScaleAbs`) is modelled
  concretely per OpenCV's documented per-pixel semantics
  `dst = saturate_cast<uchar>(|src*alpha + beta|)`.
* `extract_exact_frame` (lines 132-146) becomes a function over an oracle
  describing the behaviour of the `av` collaborator (whether open / stream
  lookup / seek / decode / save succeed, and the decoded pts sequence),
  returning the save result, the raised error (if any), and whether the
  container handle was opened and closed.
* The Flask routes `serve_processed_frame_image` (lines 963-980),
  `export_zip` per-frame logic (lines 1033-1048), `save_frame`
  (lines 920-938) and `update_frame_scale` (lines 1015-1024) are embedded
  as pure functions over explicit request data and store state.

Rational numbers model Python floats (all inputs of interest are exact),
`pyInt` models Python's `int()` truncation toward zero.
-/

namespace VideoApp

/-- Python `int()` applied to a real value: truncation toward zero. -/
def pyInt (q : ℚ) : ℤ :=
  if 0 ≤ q then ⌊q⌋ else ⌈q⌉

/-- OpenCV `cvRound`: round half to even (banker's rounding). -/
def cvRound (q : ℚ) : ℤ :=
  let fl := ⌊q⌋
  let frac := q - fl
  if frac < 1/2 then fl
  else if 1/2 < frac then fl + 1
  else if fl % 2 = 0 then fl else fl + 1

/-- OpenCV `saturate_cast<uchar>`: clamp an integer to the byte range. -/
def satUChar (z : ℤ) : ℕ :=
  (min 255 (max 0 z)).toNat

/-- Per-channel semantics of `cv2.convertScaleAbs(img, alpha, beta)`
(src/app.py line 78): `saturate_cast<uchar>(|alpha*v + beta|)`. -/
def convertScaleAbsVal (alpha beta : ℚ) (v : ℕ) : ℕ :=
  satUChar (cvRound |alpha * (v : ℚ) + beta|)

/-- One 8-bit BGR pixel. -/
abbrev Pixel : Type := ℕ × ℕ × ℕ

/-- A decoded image: rows of BGR pixels (the `img_cv` ndarray). -/
abbrev Image : Type := List (List Pixel)

/-- Apply a channel map to all three channels of a pixel. -/
def mapPx (g : ℕ → ℕ) (p : Pixel) : Pixel :=
  (g p.1, g p.2.1, g p.2.2)

/-- Lift of `cv2.convertScaleAbs` to a whole image. -/
def convertScaleAbs (alpha beta : ℚ) (img : Image) : Image :=
  img.map (List.map (mapPx (convertScaleAbsVal alpha beta)))

/-- One entry of the `filters` array (a JSON object; absent keys are
modelled by the `.get` default values used at lines 77 and 86). -/
structure FilterSpec where
  name : String
  enabled : Bool
  brightness : ℚ := 0
  contrast : ℚ := 0
  clipLimit : ℚ := 2
  gridSize : ℚ := 8
deriving DecidableEq

/-- One entry of the `annotations` array (tagged by its `type` key),
with the `.get` defaults of lines 110, 120, 121 already applied. -/
inductive AnnSpec where
  | lineAnn (startP endP : ℚ × ℚ) (color : String) (thickness : ℚ)
  | rectAnn (startP endP : ℚ × ℚ) (color : String) (thickness : ℚ)
  | textAnn (posP : ℚ × ℚ) (txt : String) (color : String) (fontSize : ℚ)
deriving DecidableEq

/-- A fully-computed drawing primitive, as handed to the cv2 drawing
collaborator (`cv2.line` / `cv2.rectangle` / `cv2.putText`): integer
pixel coordinates, colour string (converted to BGR by the collaborator),
and the already-scaled stroke/font parameters. -/
inductive DrawCmd where
  | lineCmd (startPt endPt : ℤ × ℤ) (color : String) (thickness : ℤ)
  | rectCmd (startPt endPt : ℤ × ℤ) (color : String) (thickness : ℤ)
  | textCmd (posPt : ℤ × ℤ) (txt : String) (color : String)
      (fontScale : ℚ) (fontThickness : ℤ)
deriving DecidableEq

/-- The external image-processing collaborators used by the pipeline:
`cv2.imdecode` (may fail, line 69), the LAB-space white-balance block
(lines 80-84), the CLAHE block (lines 86-92), the PIL Lanczos resize
(lines 96-100), the primitive drawing calls (lines 114, 116, 124) and
`cv2.imencode('.png', ...)` (line 127). -/
structure Collab where
  imdecode : List ℕ → Option Image
  whiteBalance : Image → Image
  claheLum : ℚ → ℚ → Image → Image
  resizeLanczos : Image → ℕ → Image
  draw : Image → DrawCmd → Image
  imencodePNG : Image → List ℕ

/-- The body of one iteration of the filter loop for an enabled filter
(lines 75-92): dispatch on `name`; an unrecognised name leaves the image
unchanged. -/
def applyOneFilter (c : Collab) (img : Image) (f : FilterSpec) : Image :=
  if f.name = "brightness_contrast" then
    convertScaleAbs (1 + f.contrast / 100) f.brightness img
  else if f.name = "white_balance" then
    c.whiteBalance img
  else if f.name = "clahe" then
    c.claheLum f.clipLimit f.gridSize img
  else
    img

/-- The filter loop (lines 73-92): `for f in filters_array:` with
`if not f.get('enabled'): continue`. -/
def filterStage (c : Collab) (img : Image) : List FilterSpec → Image
  | [] => img
  | f :: fs =>
      if f.enabled then filterStage c (applyOneFilter c img f) fs
      else filterStage c img fs

/-- Scale one 2-D point as at lines 111-112 and 119:
`tuple(map(int, [p * scale for p in pt]))`. -/
def scalePt (scale : ℕ) (p : ℚ × ℚ) : ℤ × ℤ :=
  (pyInt (p.1 * (scale : ℚ)), pyInt (p.2 * (scale : ℚ)))

/-- Computation of the drawing primitive for one annotation
(lines 106-124): every coordinate and size field is multiplied by
`scale`; stroke thickness is `max(1, int(thickness * scale))`; for text,
`font_size_px = fontSize * scale`, `font_scale = font_size_px / 25.0`,
`font_thickness = max(1, int(font_size_px / 15))`. -/
def annCmd (scale : ℕ) : AnnSpec → DrawCmd
  | .lineAnn s e col t =>
      .lineCmd (scalePt scale s) (scalePt scale e) col
        (max 1 (pyInt (t * (scale : ℚ))))
  | .rectAnn s e col t =>
      .rectCmd (scalePt scale s) (scalePt scale e) col
        (max 1 (pyInt (t * (scale : ℚ))))
  | .textAnn p txt col fsz =>
      let px := fsz * (scale : ℚ)
      .textCmd (scalePt scale p) txt col (px / 25) (max 1 (pyInt (px / 15)))

/-- The drawing loop (lines 105-124): each annotation, in list order, is
turned into a primitive and drawn onto the canvas. -/
def drawStage (c : Collab) (canvas : Image) (anns : List AnnSpec)
    (scale : ℕ) : Image :=
  anns.foldl (fun cv a => c.draw cv (annCmd scale a)) canvas

/-- Model of `apply_filter_and_drawing_pipeline(image_bytes, filters_array,
annotations_array, scale)` (lines 67-128): decode (returning `None` on
failure), run the filter loop, rescale when `scale > 1` (otherwise work
on a copy), draw the annotations, encode to PNG. -/
def apply_filter_and_drawing_pipeline (c : Collab) (imageBytes : List ℕ)
    (filtersArray : List FilterSpec) (annsArray : List AnnSpec)
    (scale : ℕ) : Option (List ℕ) :=
  match c.imdecode imageBytes with
  | none => none
  | some imgCv =>
      let filtered := filterStage c imgCv filtersArray
      let canvas := if 1 < scale then c.resizeLanczos filtered scale
                    else filtered
      let canvas2 := drawStage c canvas annsArray scale
      some (c.imencodePNG canvas2)

/-! ## Exact-frame extraction (`extract_exact_frame`, lines 132-146) -/

/-- The target tick: `pts = int(ts / vstream.time_base)` (line 136). -/
def targetPts (ts timeBase : ℚ) : ℤ :=
  pyInt (ts / timeBase)

/-- The decode loop (lines 138-143): scan the decoded frames (given by
their presentation timestamps, in decode order) and return the first one
with `frm.pts >= pts`; `break` afterwards, so later frames are never
examined. -/
def scanFrames (target : ℤ) : List ℤ → Option ℤ
  | [] => none
  | p :: rest => if target ≤ p then some p else scanFrames target rest

/-- Errors the `av`/PIL collaborators can raise inside
`extract_exact_frame`. -/
inductive ExtErr where
  | openFailed
  | noStream
  | seekFailed
  | decodeFailed
  | saveFailed
deriving DecidableEq

/-- Oracle describing the behaviour of the external video-decoding
collaborator for one call: whether `av.open`, the stream lookup, the
backward keyframe seek, the decode iteration and `img.save` succeed, the
stream's time base, and the pts sequence the decoder yields after the
seek. -/
structure ExtOracle where
  openOk : Bool
  streamOk : Bool
  timeBase : ℚ
  seekOk : Bool
  decodeOk : Bool
  frames : List ℤ
  saveOk : Bool

/-- Result of one run of `extract_exact_frame`: whether a container
handle was opened and whether it was closed, the pts of the frame saved
to `out_path` (if any), and the exception propagated to the caller (if
any). -/
structure ExtRes where
  opened : Bool
  closed : Bool
  savedPts : Option ℤ
  error : Option ExtErr
deriving DecidableEq

/-- The `try` body after a successful `av.open` (lines 135-143): stream
lookup, tick conversion, backward seek, then the decode loop; exactly
one image is saved, for the first frame with pts at or above the target.
Returns the raised error (if any) and the saved frame's pts (if any). -/
def extractBody (o : ExtOracle) (ts : ℚ) : Option ExtErr × Option ℤ :=
  if ¬o.streamOk then (some .noStream, none)
  else if ¬o.seekOk then (some .seekFailed, none)
  else if ¬o.decodeOk then (some .decodeFailed, none)
  else
    match scanFrames (targetPts ts o.timeBase) o.frames with
    | none => (none, none)
    | some p => if o.saveOk then (none, some p) else (some .saveFailed, none)

/-- Model of `extract_exact_frame(video_path, ts, out_path)` (lines 132-146):
`try:` open the container and run the body; `finally:` close the
container if (and only if) `av.open` bound it (`'container' in
locals()`).  Errors propagate to the caller after the close. -/
def extract_exact_frame (o : ExtOracle) (ts : ℚ) : ExtRes :=
  if ¬o.openOk then
    { opened := false, closed := false, savedPts := none,
      error := some .openFailed }
  else
    let r := extractBody o ts
    { opened := true, closed := true, savedPts := r.2, error := r.1 }

/-! ## Frame records and the in-memory store -/

/-- One frame record as stored in `FRAMES_BY_VIDEO` (see `save_frame`,
lines 931-936). -/
structure FrameRec where
  id : String
  videoId : String
  catId : String
  ts : ℚ
  path : String
  note : String
  filters : List FilterSpec
  annotations : List AnnSpec
  scale : ℚ
deriving DecidableEq

/-- The `FRAMES_BY_VIDEO` map: video id → list of frame records, in dict
insertion order. -/
abbrev Store : Type := List (String × List FrameRec)

/-- Outcome of the `save_frame` route (`POST /frame`, lines 920-938). -/
inductive SaveResp where
  | okFrame (f : FrameRec)
  | videoNotFound
  | serverError
deriving DecidableEq

/-- The default filter stack of a captured frame (lines 931-935). -/
def defaultFilters : List FilterSpec :=
  [{ name := "brightness_contrast", enabled := false,
     brightness := 0, contrast := 0 },
   { name := "clahe", enabled := false, clipLimit := 2, gridSize := 8 },
   { name := "white_balance", enabled := false }]

/-- Model of `save_frame` (lines 920-938) for a known video: calls
`extract_exact_frame` exactly once (any exception there propagates as a
server error before any record is created); otherwise a new frame record
with the default filter stack, empty annotations and `scale = 1` is
appended and returned, whether or not an image was actually saved. -/
def save_frame (o : ExtOracle) (ts : ℚ) (frames : List FrameRec)
    (newId vid cid path note : String) : List FrameRec × SaveResp :=
  let r := extract_exact_frame o ts
  match r.error with
  | some _ => (frames, .serverError)
  | none =>
      let f : FrameRec :=
        { id := newId, videoId := vid, catId := cid, ts := ts,
          path := path, note := note, filters := defaultFilters,
          annotations := [], scale := 1 }
      (frames ++ [f], .okFrame f)

/-! ## Processed-frame serving and export (lines 963-980 and 1026-1050) -/

/-- Response of `serve_processed_frame_image`: the stored file served
directly (fast path, line 972), a processed PNG (line 977), or the HTTP
500 processing-failure response (line 976). -/
inductive ServeResp where
  | fileDirect (bytes : List ℕ)
  | processedPng (bytes : List ℕ)
  | processError
deriving DecidableEq

/-- Model of `serve_processed_frame_image` (lines 963-980) for an existing file
with source bytes `src`: if the parsed `filters` list is empty, the
parsed `annotations` list is empty and `scale == 1`, serve the stored
file bytes directly (no decode); otherwise run the pipeline on the file
bytes and serve the PNG, answering 500 when decoding failed. -/
def serve_processed_frame_image (c : Collab) (src : List ℕ)
    (filtersArray : List FilterSpec) (annsArray : List AnnSpec)
    (scale : ℕ) : ServeResp :=
  if filtersArray = [] ∧ annsArray = [] ∧ scale = 1 then
    .fileDirect src
  else
    match apply_filter_and_drawing_pipeline c src filtersArray annsArray
        scale with
    | none => .processError
    | some b => .processedPng b

/-- The per-frame body of the `export_zip` loop (lines 1034-1048) for a
frame whose image file holds `src`: compute the enabled filters; if any
filter is enabled, or there are annotations, or `scale > 1`, write the
pipeline output (writing nothing when the pipeline returns `None`);
otherwise copy the stored file into the archive unchanged.  `none`
means no archive entry was written for this frame. -/
def export_zip_entry (c : Collab) (src : List ℕ)
    (filtersArray : List FilterSpec) (annsArray : List AnnSpec)
    (scale : ℕ) : Option (List ℕ) :=
  let activeFilters := filtersArray.filter (·.enabled)
  if activeFilters ≠ [] ∨ annsArray ≠ [] ∨ 1 < scale then
    apply_filter_and_drawing_pipeline c src activeFilters annsArray scale
  else
    some src

/-! ## Scale update (`update_frame_scale`, lines 1015-1024) -/

/-- Response of the `PUT /frame/<fid>/scale` route. -/
inductive ScaleResp where
  | ok
  | badRequest
  | notFound
deriving DecidableEq

/-- The test `new_scale not in [1, 2, 3]` (line 1019), on the JSON payload's
`scale` value (`none` when the key is absent). -/
def validScale (p : Option ℚ) : Prop :=
  p = some 1 ∨ p = some 2 ∨ p = some 3

instance (p : Option ℚ) : Decidable (validScale p) := by
  unfold validScale; exact inferInstance

/-- Replace the scale of the first frame with the given id in one
video's list (the walrus `next(...)` + in-place mutation of
lines 1021-1022); `none` when no frame matches. -/
def setScaleFirst (fid : String) (s : ℚ) :
    List FrameRec → Option (List FrameRec)
  | [] => none
  | f :: fs =>
      if f.id = fid then some ({ f with scale := s } :: fs)
      else (setScaleFirst fid s fs).map (f :: ·)

/-- Walk `FRAMES_BY_VIDEO.values()` in order (line 1020) and update the
first video list containing the frame id; `none` when no list does. -/
def updStoreScale (fid : String) (s : ℚ) : Store → Option Store
  | [] => none
  | (vid, frames) :: rest =>
      match setScaleFirst fid s frames with
      | some frames2 => some ((vid, frames2) :: rest)
      | none => (updStoreScale fid s rest).map ((vid, frames) :: ·)

/-- Model of `update_frame_scale(fid)` (lines 1015-1024): reject payloads whose
`scale` is not 1, 2 or 3 with a 400 error; otherwise set the scale of
the first matching frame and answer ok, or answer 404 when no frame in
any video has the id.  The store is returned alongside the response. -/
def update_frame_scale (store : Store) (fid : String) (payload : Option ℚ) :
    Store × ScaleResp :=
  if validScale payload then
    match payload with
    | none => (store, .badRequest)
    | some s =>
        match updStoreScale fid s store with
        | some store2 => (store2, .ok)
        | none => (store, .notFound)
  else
    (store, .badRequest)

/-! ## Spec-side definitions and concrete collaborator instances -/

/-- Spec-side formula for the brightness/contrast filter, following the
spec's words: `alpha = 1 + contrast/100`, `beta = brightness`, and every
pixel channel `v' = clamp(alpha*v + beta, 0, 255)` (no absolute value).
Used to compare the spec against the code's `convertScaleAbs`. -/
def specBCClamp (brightness contrast : ℚ) (v : ℕ) : ℚ :=
  let alpha := 1 + contrast / 100
  let beta := brightness
  max 0 (min 255 (alpha * (v : ℚ) + beta))

/-- A single-pixel image whose three channels all hold `v`. -/
def img1px (v : ℕ) : Image := [[(v, v, v)]]

/-- A concrete collaborator instance used for witnesses and
counterexamples: decoding always succeeds (producing a fixed 1-pixel
image), the external colour operations are identities, and encoding
yields a fixed marker byte string distinct from typical inputs. -/
def collabTriv : Collab where
  imdecode := fun _ => some (img1px 50)
  whiteBalance := fun i => i
  claheLum := fun _ _ i => i
  resizeLanczos := fun i _ => i
  draw := fun i _ => i
  imencodePNG := fun _ => [137, 80]

/-- A collaborator whose decoder always fails (undecodable bytes). -/
def collabNoDecode : Collab :=
  { collabTriv with imdecode := fun _ => none }

/-- A `brightness_contrast` FilterSpec with `enabled = false` and
arbitrary parameter values. -/
def bcDisabled : FilterSpec :=
  { name := "brightness_contrast", enabled := false,
    brightness := 999, contrast := -999 }

/-- A `brightness_contrast` FilterSpec with the given brightness and
contrast, enabled. -/
def bcEnabled (b k : ℚ) : FilterSpec :=
  { name := "brightness_contrast", enabled := true,
    brightness := b, contrast := k }

/-! ## Helper lemmas -/

theorem cvRound_intCast (n : ℤ) : cvRound (n : ℚ) = n := by
  unfold cvRound
  norm_num [Int.floor_intCast]

theorem pyInt_intCast (n : ℤ) : pyInt (n : ℚ) = n := by
  unfold pyInt
  by_cases h : 0 ≤ (n : ℚ) <;> simp [h, Int.floor_intCast, Int.ceil_intCast]

theorem scanFrames_eq_some {target p : ℤ} :
    ∀ {frames : List ℤ}, scanFrames target frames = some p →
      target ≤ p ∧ ∃ pre post, frames = pre ++ p :: post ∧
        ∀ q ∈ pre, q < target := by
  intro frames
  induction frames with
  | nil => intro h; simp [scanFrames] at h
  | cons a rest ih =>
      intro h
      by_cases ha : target ≤ a
      · simp [scanFrames, ha] at h
        subst h
        exact ⟨ha, [], rest, rfl, by simp⟩
      · simp [scanFrames, ha] at h
        obtain ⟨hp, pre, post, hfr, hpre⟩ := ih h
        refine ⟨hp, a :: pre, post, by simp [hfr], ?_⟩
        intro q hq
        rcases List.mem_cons.mp hq with hq | hq
        · subst hq; exact lt_of_not_le ha
        · exact hpre q hq

theorem scanFrames_eq_none {target : ℤ} :
    ∀ {frames : List ℤ}, scanFrames target frames = none →
      ∀ q ∈ frames, q < target := by
  intro frames
  induction frames with
  | nil => intro _ q hq; simp at hq
  | cons a rest ih =>
      intro h q hq
      by_cases ha : target ≤ a
      · simp [scanFrames, ha] at h
      · simp [scanFrames, ha] at h
        rcases List.mem_cons.mp hq with hq | hq
        · subst hq; exact lt_of_not_le ha
        · exact ih h q hq

theorem scanFrames_none_of_all_lt {target : ℤ} :
    ∀ {frames : List ℤ}, (∀ q ∈ frames, q < target) →
      scanFrames target frames = none := by
  intro frames
  induction frames with
  | nil => intro _; rfl
  | cons a rest ih =>
      intro h
      have ha : ¬ target ≤ a := not_le.mpr (h a (by simp))
      simp [scanFrames, ha]
      exact ih fun q hq => h q (by simp [hq])

theorem setScaleFirst_eq_none {fid : String} {s : ℚ} :
    ∀ {fs : List FrameRec}, (∀ f ∈ fs, f.id ≠ fid) →
      setScaleFirst fid s fs = none := by
  intro fs
  induction fs with
  | nil => intro _; rfl
  | cons f rest ih =>
      intro h
      have hf : ¬ f.id = fid := h f (by simp)
      simp [setScaleFirst, hf]
      exact ih fun g hg => h g (by simp [hg])

theorem setScaleFirst_app {fid : String} {s : ℚ} {f : FrameRec} :
    ∀ {pre : List FrameRec} (post : List FrameRec),
      (∀ g ∈ pre, g.id ≠ fid) → f.id = fid →
      setScaleFirst fid s (pre ++ f :: post) =
        some (pre ++ { f with scale := s } :: post) := by
  intro pre
  induction pre with
  | nil => intro post _ hf; simp [setScaleFirst, hf]
  | cons g rest ih =>
      intro post hpre hf
      have hg : ¬ g.id = fid := hpre g (by simp)
      have h2 := ih post (fun a ha => hpre a (by simp [ha])) hf
      simp [setScaleFirst, hg, h2]

theorem updStoreScale_eq_none {fid : String} {s : ℚ} :
    ∀ {store : Store}, (∀ e ∈ store, ∀ g ∈ e.2, g.id ≠ fid) →
      updStoreScale fid s store = none := by
  intro store
  induction store with
  | nil => intro _; rfl
  | cons e rest ih =>
      intro h
      obtain ⟨vid, frames⟩ := e
      have h1 : setScaleFirst fid s frames = none :=
        setScaleFirst_eq_none fun g hg => h (vid, frames) (by simp) g hg
      simp [updStoreScale, h1]
      exact ih fun e2 he2 => h e2 (by simp [he2])

theorem updStoreScale_app {fid : String} {s : ℚ} {vid : String}
    {frames frames2 : List FrameRec} :
    ∀ {preV : Store} (postV : Store),
      (∀ e ∈ preV, ∀ g ∈ e.2, g.id ≠ fid) →
      setScaleFirst fid s frames = some frames2 →
      updStoreScale fid s (preV ++ (vid, frames) :: postV) =
        some (preV ++ (vid, frames2) :: postV) := by
  intro preV
  induction preV with
  | nil => intro postV _ hset; simp [updStoreScale, hset]
  | cons e rest ih =>
      intro postV hpre hset
      obtain ⟨v2, fs2⟩ := e
      have h1 : setScaleFirst fid s fs2 = none :=
        setScaleFirst_eq_none fun g hg => hpre (v2, fs2) (by simp) g hg
      have h2 := ih postV (fun a ha => hpre a (by simp [ha])) hset
      simp [updStoreScale, h1, h2]

/-! ## Claim theorems -/

/-- C1: for every annotation and every scale factor, the renderer
multiplies every coordinate and every size field (thickness, fontSize)
by the scale factor before drawing (coordinates through Python's `int`),
and floors the scaled stroke thickness to a minimum of 1; in particular
a line annotation with start=[10,10], end=[20,20] drawn at scale=1 lands
at pixel-space [10,10]-[20,20], and the same annotation drawn at scale=2
lands at [20,20]-[40,40]. -/
theorem c1_renderer_scales_all_fields :
    (∀ (s e : ℚ × ℚ) (col : String) (t : ℚ) (scale : ℕ),
      annCmd scale (.lineAnn s e col t) =
        .lineCmd (pyInt (s.1 * (scale : ℚ)), pyInt (s.2 * (scale : ℚ)))
          (pyInt (e.1 * (scale : ℚ)), pyInt (e.2 * (scale : ℚ))) col
          (max 1 (pyInt (t * (scale : ℚ)))) ∧
      annCmd scale (.rectAnn s e col t) =
        .rectCmd (pyInt (s.1 * (scale : ℚ)), pyInt (s.2 * (scale : ℚ)))
          (pyInt (e.1 * (scale : ℚ)), pyInt (e.2 * (scale : ℚ))) col
          (max 1 (pyInt (t * (scale : ℚ))))) ∧
    (∀ (p : ℚ × ℚ) (txt col : String) (fsz : ℚ) (scale : ℕ),
      annCmd scale (.textAnn p txt col fsz) =
        .textCmd (pyInt (p.1 * (scale : ℚ)), pyInt (p.2 * (scale : ℚ)))
          txt col ((fsz * (scale : ℚ)) / 25)
          (max 1 (pyInt ((fsz * (scale : ℚ)) / 15)))) ∧
    annCmd 1 (.lineAnn (10, 10) (20, 20) "#ff0000" 2) =
      .lineCmd (10, 10) (20, 20) "#ff0000" 2 ∧
    annCmd 2 (.lineAnn (10, 10) (20, 20) "#ff0000" 2) =
      .lineCmd (20, 20) (40, 40) "#ff0000" 4 := by
  refine ⟨fun s e col t scale => ⟨rfl, rfl⟩, fun p txt col fsz scale => rfl,
    ?_, ?_⟩ <;>
    · simp only [annCmd, scalePt]
      norm_num [pyInt]

/-- C6: on every exit path of `extract_exact_frame` — normal completion,
early return when no frame matches, and any exception during stream
lookup, seek, decode or save — the container handle is closed exactly
when it was opened. -/
theorem c6_container_closed_on_every_path :
    ∀ (o : ExtOracle) (ts : ℚ),
      (extract_exact_frame o ts).closed = (extract_exact_frame o ts).opened := by
  intro o ts
  unfold extract_exact_frame
  by_cases h : o.openOk <;> simp [h]

/-- C7: the composition pipeline is deterministic — for every input byte
buffer, filter list, annotation list and scale, two calls with identical
arguments yield byte-identical output (two-run equality of the embedded
function, for any fixed deterministic collaborator instance). -/
theorem c7_pipeline_deterministic :
    ∀ (c : Collab) (bytes : List ℕ) (fs : List FilterSpec)
      (anns : List AnnSpec) (scale : ℕ),
      apply_filter_and_drawing_pipeline c bytes fs anns scale =
        apply_filter_and_drawing_pipeline c bytes fs anns scale :=
  fun _ _ _ _ _ => rfl

/-- C8: the filter loop skips every FilterSpec with `enabled = false`
(regardless of its other fields, which are never examined) and applies
the enabled filters strictly in array order, each consuming the previous
stage's output: the loop equals a left fold of the single-filter step
over the enabled sublist. -/
theorem c8_disabled_skipped_enabled_in_order :
    ∀ (c : Collab) (img : Image) (fs : List FilterSpec),
      filterStage c img fs =
        (fs.filter (·.enabled)).foldl (applyOneFilter c) img := by
  intro c img fs
  induction fs generalizing img with
  | nil => rfl
  | cons f rest ih =>
      by_cases h : f.enabled <;>
        simp [filterStage, List.filter_cons, h, ih]

/-- C9: for every input byte buffer that cannot be decoded as an image,
the pipeline returns `none` (the Python `None` error value) rather than
raising, producing no partial output. -/
theorem c9_undecodable_input_returns_none :
    ∀ (c : Collab) (bytes : List ℕ) (fs : List FilterSpec)
      (anns : List AnnSpec) (scale : ℕ),
      c.imdecode bytes = none →
      apply_filter_and_drawing_pipeline c bytes fs anns scale = none := by
  intro c bytes fs anns scale h
  unfold apply_filter_and_drawing_pipeline
  rw [h]

theorem c9_witness :
    collabNoDecode.imdecode [1, 2] = none ∧
    apply_filter_and_drawing_pipeline collabNoDecode [1, 2] [] [] 1 = none :=
  ⟨rfl, c9_undecodable_input_returns_none collabNoDecode [1, 2] [] [] 1 rfl⟩

/-- C2, counterexample: with brightness = -100 and contrast = 0 (both
integers in the documented [-100,100] range) on a pixel whose channels
hold 50, the code (`cv2.convertScaleAbs`, which takes the absolute value
before saturating) outputs channel 50, while the claimed formula
`clamp(alpha*v + beta, 0, 255)` yields 0. -/
theorem c2_counterexample :
    filterStage collabTriv (img1px 50) [bcEnabled (-100) 0] = img1px 50 ∧
    specBCClamp (-100) 0 50 = 0 ∧ ((50 : ℚ) ≠ 0) := by
  refine ⟨?_, by norm_num [specBCClamp], by norm_num⟩
  have hg : convertScaleAbsVal 1 (-100) 50 = 50 := by
    unfold convertScaleAbsVal
    have h0 : (1 : ℚ) * ((50 : ℕ) : ℚ) + (-100) = (((-50 : ℤ)) : ℚ) := by
      push_cast; ring
    rw [h0, ← Int.cast_abs, cvRound_intCast]
    rfl
  simp [filterStage, applyOneFilter, bcEnabled, convertScaleAbs, img1px,
    mapPx, hg]

/-- C2, amended: the filter stage sets `alpha = 1 + contrast/100` and
`beta = brightness` and maps every pixel channel `v` to
`clamp(round(|alpha*v + beta|), 0, 255)` — `cv2.convertScaleAbs` takes
the absolute value before saturating; in particular with brightness=50
and contrast=0 every output channel still equals
`clamp(sourceChannel + 50, 0, 255)`. -/
theorem c2_amended_abs_before_clamp :
    (∀ (c : Collab) (img : Image) (b k : ℚ),
      filterStage c img [bcEnabled b k] =
        img.map (List.map (mapPx (convertScaleAbsVal (1 + k / 100) b)))) ∧
    (∀ v : ℕ, convertScaleAbsVal (1 + 0 / 100) 50 v = min (v + 50) 255) := by
  constructor
  · intro c img b k; rfl
  · intro v
    unfold convertScaleAbsVal
    have h0 : (1 + (0 : ℚ) / 100) * (v : ℚ) + 50 =
        (((v : ℤ) + 50 : ℤ) : ℚ) := by push_cast; ring
    rw [h0, ← Int.cast_abs, cvRound_intCast]
    have h1 : |(v : ℤ) + 50| = (v : ℤ) + 50 := abs_of_nonneg (by positivity)
    rw [h1]
    unfold satUChar
    omega

/-- C3, counterexample: a request with a non-empty filter list whose
single entry is disabled, no annotations and scale = 1 does NOT take the
fast path of `serve_processed_frame_image` — the code tests
`not filters_array` (list emptiness), not "no enabled entries" — so the
frame is decoded and re-encoded rather than served byte-for-byte. -/
theorem c3_counterexample :
    bcDisabled.enabled = false ∧
    serve_processed_frame_image collabTriv [7] [bcDisabled] [] 1 =
      .processedPng [137, 80] ∧
    ServeResp.processedPng [137, 80] ≠ .fileDirect [7] := by
  refine ⟨rfl, rfl, by simp⟩

/-- C3, amended: `serve_processed_frame_image` returns the source file
bytes unchanged (no decode/encode round-trip) exactly on an *empty*
filter list, empty annotations and scale = 1; the export-zip path, by
contrast, copies the stored file unchanged whenever the filter list has
no *enabled* entry, annotations are empty and scale is not above 1. -/
theorem c3_amended_fast_path_needs_empty_list :
    (∀ (c : Collab) (src : List ℕ),
      serve_processed_frame_image c src [] [] 1 = .fileDirect src) ∧
    (∀ (c : Collab) (src : List ℕ) (fs : List FilterSpec) (scale : ℕ),
      fs.filter (·.enabled) = [] → ¬ 1 < scale →
      export_zip_entry c src fs [] scale = some src) := by
  constructor
  · intro c src
    simp [serve_processed_frame_image]
  · intro c src fs scale h1 h2
    unfold export_zip_entry
    simp [h1, h2]

theorem c3_witness :
    serve_processed_frame_image collabTriv [5] [] [] 1 = .fileDirect [5] ∧
    export_zip_entry collabTriv [5] [bcDisabled] [] 1 = some [5] := by
  refine ⟨c3_amended_fast_path_needs_empty_list.1 collabTriv [5],
    c3_amended_fast_path_needs_empty_list.2 collabTriv [5] [bcDisabled] 1
      (by decide) (by norm_num)⟩

/-- A concrete oracle for the exact-frame locator: time base 1/3 s per
tick, frames decoded at ticks 0, 1, 2, all collaborator steps
succeeding. -/
def oracleCex : ExtOracle :=
  ⟨true, true, 1/3, true, true, [0, 1, 2], true⟩

/-- C4, counterexample: with time base 1/3 and decoded ticks 0,1,2, a
request at t = 1/2 (within [0, duration): 1/2 < 2·(1/3)) saves the frame
at tick 1 — whose presentation time 1·(1/3) = 1/3 is strictly before
t = 1/2 — because the target tick is the truncation int(t/time_base). -/
theorem c4_counterexample :
    oracleCex.timeBase = 1/3 ∧
    (extract_exact_frame oracleCex (1/2)).savedPts = some 1 ∧
    (1 : ℚ) * (1/3) < 1/2 ∧
    (0 : ℚ) ≤ 1/2 ∧ (1/2 : ℚ) < 2 * (1/3) := by
  have ht : targetPts (1/2) (1/3) = 1 := by
    norm_num [targetPts, pyInt]
  refine ⟨rfl, ?_, by norm_num, by norm_num, by norm_num⟩
  simp only [extract_exact_frame, extractBody, oracleCex]
  norm_num [ht, scanFrames]

/-- C4, amended: the locator converts `t` to the target tick
`int(t / time_base)`, and (when open/stream/seek/decode/save succeed)
saves exactly the first decoded frame whose presentation tick is ≥ the
target tick, discarding all frames decoded before it; the saved tick is
never strictly before the target tick (though its presentation time in
seconds can be strictly before `t`, as the counterexample shows). -/
theorem c4_amended_first_pts_at_or_after_tick :
    (∀ (target : ℤ) (frames : List ℤ) (p : ℤ),
      scanFrames target frames = some p →
        target ≤ p ∧ ∃ pre post, frames = pre ++ p :: post ∧
          ∀ q ∈ pre, q < target) ∧
    (∀ (o : ExtOracle) (ts : ℚ),
      o.openOk = true → o.streamOk = true → o.seekOk = true →
      o.decodeOk = true → o.saveOk = true →
      (extract_exact_frame o ts).savedPts =
        scanFrames (targetPts ts o.timeBase) o.frames) := by
  constructor
  · intro target frames p h
    exact scanFrames_eq_some h
  · intro o ts h1 h2 h3 h4 h5
    unfold extract_exact_frame extractBody
    simp only [h1, h2, h3, h4, h5]
    cases hscan : scanFrames (targetPts ts o.timeBase) o.frames <;>
      simp [hscan]

theorem c4_witness :
    ((1 : ℤ) ≤ 1 ∧ ∃ pre post, ([0, 1, 2] : List ℤ) = pre ++ 1 :: post ∧
      ∀ q ∈ pre, q < 1) ∧
    (extract_exact_frame oracleCex (1/2)).savedPts =
      scanFrames (targetPts (1/2) oracleCex.timeBase) oracleCex.frames := by
  constructor
  · exact c4_amended_first_pts_at_or_after_tick.1 1 [0, 1, 2] 1 (by decide)
  · exact c4_amended_first_pts_at_or_after_tick.2 oracleCex (1/2)
      rfl rfl rfl rfl rfl

/-- A concrete oracle whose decoded ticks all lie strictly before the
target tick of a request at t = 10 s (time base 1 s per tick): the
requested timestamp is beyond the stream's duration. -/
def oracleBeyond : ExtOracle :=
  ⟨true, true, 1, true, true, [0, 1, 2], true⟩

/-- C5, counterexample: a capture at t = 10 on a stream whose decoded
ticks are 0,1,2 (time base 1) completes silently — no error surfaces
from `extract_exact_frame`, no frame is saved — and `save_frame` still
appends a frame record and answers success instead of an error. -/
theorem c5_counterexample :
    (extract_exact_frame oracleBeyond 10).error = none ∧
    (extract_exact_frame oracleBeyond 10).savedPts = none ∧
    (save_frame oracleBeyond 10 [] "f1" "v1" "c1" "p.png" "n").2 ≠
      SaveResp.serverError ∧
    ((save_frame oracleBeyond 10 [] "f1" "v1" "c1" "p.png" "n").1).length
      = 1 := by
  have ht : targetPts 10 1 = 10 := by
    norm_num [targetPts, pyInt]
  have hrun : extract_exact_frame oracleBeyond 10 =
      { opened := true, closed := true, savedPts := none, error := none } := by
    simp only [extract_exact_frame, extractBody, oracleBeyond]
    norm_num [ht, scanFrames]
  refine ⟨by rw [hrun], by rw [hrun], ?_, ?_⟩ <;>
    simp [save_frame, hrun]

/-- C5, amended: when no decoded frame reaches the target tick (the
timestamp is beyond the stream's duration) and the collaborator steps
themselves succeed, the extraction completes silently — it saves no
image and surfaces no error — and `save_frame` still appends a new frame
record (with the default filter stack, no annotations, scale 1) and
returns it as a success; `extract_exact_frame` is invoked exactly once,
with no automatic retry. -/
theorem c5_amended_silent_completion :
    ∀ (o : ExtOracle) (ts : ℚ) (frames : List FrameRec)
      (nid vid cid path note : String),
      o.openOk = true → o.streamOk = true → o.seekOk = true →
      o.decodeOk = true →
      (∀ p ∈ o.frames, p < targetPts ts o.timeBase) →
      (extract_exact_frame o ts).savedPts = none ∧
      (extract_exact_frame o ts).error = none ∧
      save_frame o ts frames nid vid cid path note =
        (frames ++
          [⟨nid, vid, cid, ts, path, note, defaultFilters, [], 1⟩],
         .okFrame ⟨nid, vid, cid, ts, path, note, defaultFilters, [], 1⟩) := by
  intro o ts frames nid vid cid path note h1 h2 h3 h4 hall
  have hscan := scanFrames_none_of_all_lt hall
  have hrun : extract_exact_frame o ts =
      { opened := true, closed := true, savedPts := none, error := none } := by
    unfold extract_exact_frame extractBody
    simp [h1, h2, h3, h4, hscan]
  refine ⟨by rw [hrun], by rw [hrun], ?_⟩
  simp [save_frame, hrun]

theorem c5_witness :
    (extract_exact_frame oracleBeyond 10).savedPts = none ∧
    (extract_exact_frame oracleBeyond 10).error = none ∧
    save_frame oracleBeyond 10 [] "f1" "v1" "c1" "p.png" "n" =
      (([] : List FrameRec) ++
        [⟨"f1", "v1", "c1", 10, "p.png", "n", defaultFilters, [], 1⟩],
       .okFrame ⟨"f1", "v1", "c1", 10, "p.png", "n", defaultFilters, [], 1⟩) := by
  refine c5_amended_silent_completion oracleBeyond 10 [] "f1" "v1" "c1"
    "p.png" "n" rfl rfl rfl rfl ?_
  have ht : targetPts 10 oracleBeyond.timeBase = 10 := by
    norm_num [targetPts, pyInt, oracleBeyond]
  rw [ht]
  decide

/-- C10: the scale-update route rejects any payload whose scale is not
1, 2 or 3 (or is absent) with a 400 error leaving the store unchanged;
answers 404 leaving the store unchanged when no frame in any video has
the id; and with a valid scale and a matching id it changes exactly the
first matching frame — every other field of that frame (id, video,
category, timestamp, path, note, filters, annotations) and every other
frame in every video are returned verbatim, only the scale field is
replaced. -/
theorem c10_scale_update_touches_only_target_scale :
    (∀ (store : Store) (fid : String) (p : Option ℚ),
      ¬ validScale p →
      update_frame_scale store fid p = (store, .badRequest)) ∧
    (∀ (store : Store) (fid : String) (s : ℚ),
      validScale (some s) →
      (∀ e ∈ store, ∀ g ∈ e.2, g.id ≠ fid) →
      update_frame_scale store fid (some s) = (store, .notFound)) ∧
    (∀ (preV postV : Store) (vid : String) (pre post : List FrameRec)
       (f : FrameRec) (fid : String) (s : ℚ),
      validScale (some s) →
      (∀ e ∈ preV, ∀ g ∈ e.2, g.id ≠ fid) →
      (∀ g ∈ pre, g.id ≠ fid) →
      f.id = fid →
      update_frame_scale (preV ++ (vid, pre ++ f :: post) :: postV) fid
          (some s) =
        (preV ++ (vid, pre ++
            (⟨f.id, f.videoId, f.catId, f.ts, f.path, f.note, f.filters,
              f.annotations, s⟩ : FrameRec) :: post) :: postV, .ok)) := by
  refine ⟨?_, ?_, ?_⟩
  · intro store fid p h
    unfold update_frame_scale
    simp [h]
  · intro store fid s hv hnone
    have h1 : updStoreScale fid s store = none := updStoreScale_eq_none hnone
    unfold update_frame_scale
    simp [hv, h1]
  · intro preV postV vid pre post f fid s hv hpreV hpre hf
    have hset : setScaleFirst fid s (pre ++ f :: post) =
        some (pre ++ { f with scale := s } :: post) :=
      setScaleFirst_app post hpre hf
    have hupd : updStoreScale fid s (preV ++ (vid, pre ++ f :: post) :: postV)
        = some (preV ++ (vid, pre ++ { f with scale := s } :: post) :: postV)
      := updStoreScale_app postV hpreV hset
    unfold update_frame_scale
    simp [hv, hupd]

/-- Concrete frame records for the C10 witness. -/
def frA : FrameRec := ⟨"a", "v0", "c0", 0, "a.png", "", [], [], 1⟩

def frB : FrameRec := ⟨"b", "v1", "c0", 1, "b.png", "", [], [], 1⟩

def frF : FrameRec :=
  ⟨"f1", "v1", "c0", 2, "f.png", "note", defaultFilters, [], 1⟩

def frC : FrameRec := ⟨"c", "v1", "c0", 3, "c.png", "", [], [], 1⟩

theorem c10_witness :
    update_frame_scale [("v0", [frA]), ("v1", [frB, frF, frC])] "f1"
        (some 2) =
      ([("v0", [frA]), ("v1", [frB,
        (⟨frF.id, frF.videoId, frF.catId, frF.ts, frF.path, frF.note,
          frF.filters, frF.annotations, 2⟩ : FrameRec), frC])], .ok) ∧
    update_frame_scale [("v0", [frA])] "zz" (some 3) =
      ([("v0", [frA])], .notFound) ∧
    update_frame_scale [("v0", [frA])] "a" (some 5) =
      ([("v0", [frA])], .badRequest) := by
  refine ⟨?_, ?_, ?_⟩
  · exact c10_scale_update_touches_only_target_scale.2.2
      [("v0", [frA])] [] "v1" [frB] [frC] frF ("f1") 2
      (Or.inr (Or.inl rfl)) (by decide) (by decide) rfl
  · exact c10_scale_update_touches_only_target_scale.2.1
      [("v0", [frA])] "zz" 3 (Or.inr (Or.inr rfl)) (by decide)
  · refine c10_scale_update_touches_only_target_scale.1
      [("v0", [frA])] "a" (some 5) ?_
    norm_num [validScale]

end VideoApp
